import Mathlib

/-!
Shallow embedding of the henkttp server (src/main.rs): response
serialization, request parsing, UTF-8 validation, and the per-connection
state machine driven by the mio event loop, together with theorems about
the specified properties.

Bytes are modelled as `Nat` (values < 256 in practice), byte buffers as
`List Nat`, and Rust `&str` data as `List Char`.  Nondeterministic
socket operations (`try_read_buf`, `try_write_buf`, `accept`) are
modelled by passing their outcome as an explicit parameter to the step
function that performs them; observable side effects (poller
re-registration, socket shutdown, process panic) are returned as a list
of `Action`s.
-/

namespace Henkttp

set_option maxRecDepth 100000

/-- UTF-8/ASCII bytes of a Lean string literal (all literals used are ASCII,
where `Char.toNat` is the byte value). -/
def strBytes (s : String) : List Nat := s.toList.map Char.toNat

/-- The header terminator `b"\r\n\r\n"` checked by `Request::read`. -/
def crlfcrlf : List Nat := [13, 10, 13, 10]

/-- Fuel-bounded worker for the decimal printer (structural recursion on
the fuel keeps the definition kernel-reducible; the fallback branch is
never reached when the fuel is at least the number). -/
def natDecF : Nat → Nat → List Nat
| 0, n => [48 + n % 10]
| fuel + 1, n =>
  if n < 10 then [48 + n]
  else natDecF fuel (n / 10) ++ [48 + n % 10]

/-- Decimal ASCII rendering of a `usize`, as produced by the `{}` format
of `write!(buf, "Content-Lenght: {}\r\n", self.body.len())`. -/
def natDec (n : Nat) : List Nat := natDecF n n

/-- The `enum StatusCode` from src/main.rs. -/
inductive StatusCode
| Ok
| NotFound
| Error
deriving DecidableEq

/-- The status-specific text written by the inner `match` of
`StatusCode::write`. -/
def StatusCode.text : StatusCode → List Nat
| StatusCode.Ok => strBytes ("200 OK")
| StatusCode.NotFound => strBytes ("404 Not Found")
| StatusCode.Error => strBytes ("500 Internal Server Error")

/-- Bytes appended to the buffer by `StatusCode::write`: `"HTTP/1.1 "`,
the status text, then `"\r\n"`. -/
def StatusCode.writeBytes (c : StatusCode) : List Nat :=
  strBytes ("HTTP/1.1 ") ++ c.text ++ strBytes ("\r\n")

/-- The `struct Response` from src/main.rs. -/
structure Response where
  code : StatusCode
  body : List Nat
deriving DecidableEq

/-- Embedding of `Response::new()`. -/
def Response.new : Response := { code := StatusCode.Ok, body := [] }

/-- Bytes appended to the buffer by `Response::write`: the status line,
the `Content-Lenght` header carrying `self.body.len()` in decimal, the
fixed content-type header, a blank line, then the body verbatim. -/
def Response.writeBytes (r : Response) : List Nat :=
  r.code.writeBytes
    ++ strBytes ("Content-Lenght: ") ++ natDec r.body.length ++ strBytes ("\r\n")
    ++ strBytes ("Content-type: text/plain; charset=UTF-8\r\n")
    ++ strBytes ("\r\n")
    ++ r.body

/-- Rust `char::is_whitespace`: the Unicode `White_Space` property. -/
def isRustWhitespace (c : Char) : Bool :=
  ['\u0009', '\u000A', '\u000B', '\u000C', '\u000D', '\u0020',
   '\u0085', '\u00A0', '\u1680',
   '\u2000', '\u2001', '\u2002', '\u2003', '\u2004', '\u2005',
   '\u2006', '\u2007', '\u2008', '\u2009', '\u200A',
   '\u2028', '\u2029', '\u202F', '\u205F', '\u3000'].contains c

/-- Accumulator-based worker for `str::split_whitespace`: `acc` holds the
reversed characters of the token currently being scanned. -/
def splitWsAux : List Char → List Char → List (List Char)
| [], acc => if acc.isEmpty then [] else [acc.reverse]
| c :: cs, acc =>
  if isRustWhitespace c then
    if acc.isEmpty then splitWsAux cs [] else acc.reverse :: splitWsAux cs []
  else
    splitWsAux cs (c :: acc)

/-- Rust `str::split_whitespace` (as a list of the yielded tokens). -/
def splitWs (s : List Char) : List (List Char) := splitWsAux s []

/-- The single trailing `'\r'` stripped from each line by `str::lines`. -/
def stripCr (l : List Char) : List Char :=
  if l.getLast? = some '\r' then l.dropLast else l

/-- Accumulator-based worker for `str::lines`.  A trailing `'\r'` is
stripped only from lines terminated by `'\n'`; the final unterminated
line is yielded as-is. -/
def linesAux : List Char → List Char → List (List Char)
| [], acc => if acc.isEmpty then [] else [acc.reverse]
| c :: cs, acc =>
  if c = '\n' then stripCr acc.reverse :: linesAux cs []
  else linesAux cs (c :: acc)

/-- Rust `str::lines` (as a list of the yielded lines). -/
def rustLines (s : List Char) : List (List Char) := linesAux s []

/-- Embedding of `RequestParser::method`: `self.0.split_whitespace().next()`. -/
def RequestParser.method (s : List Char) : Option (List Char) :=
  (splitWs s).head?

/-- Embedding of `RequestParser::path`: `self.0.split_whitespace().nth(1)`. -/
def RequestParser.path (s : List Char) : Option (List Char) :=
  (splitWs s)[1]?

/-- Embedding of `RequestParser::headers`: every line after the first, up to the first
empty line. -/
def RequestParser.headers (s : List Char) : List (List Char) :=
  (((rustLines s).drop 1).takeWhile (fun l => !l.isEmpty))

/-- Embedding of `RequestParser::header`: the first header line starting with `name`. -/
def RequestParser.header (s : List Char) (name : List Char) : Option (List Char) :=
  ((((rustLines s).drop 1).takeWhile (fun l => !l.isEmpty)).filter
    (fun l => name.isPrefixOf l)).head?

/-- UTF-8 continuation byte. -/
def isCont (b : Nat) : Bool := 0x80 ≤ b && b ≤ 0xBF

/-- Embedding of `std::str::from_utf8`: strict UTF-8 validation (shortest form only,
surrogates and values above U+10FFFF rejected), decoding the byte buffer
to the sequence of characters of the resulting `&str`. -/
def utf8Decode : List Nat → Option (List Char)
| [] => some []
| b :: bs =>
  if b ≤ 0x7F then
    (utf8Decode bs).map (fun r => Char.ofNat b :: r)
  else if 0xC2 ≤ b && b ≤ 0xDF then
    match bs with
    | b2 :: bs2 =>
      if isCont b2 then
        (utf8Decode bs2).map (fun r => Char.ofNat ((b - 0xC0) * 0x40 + (b2 - 0x80)) :: r)
      else none
    | [] => none
  else if 0xE0 ≤ b && b ≤ 0xEF then
    match bs with
    | b2 :: b3 :: bs3 =>
      if (if b = 0xE0 then 0xA0 ≤ b2 && b2 ≤ 0xBF
          else if b = 0xED then 0x80 ≤ b2 && b2 ≤ 0x9F
          else isCont b2) && isCont b3 then
        (utf8Decode bs3).map (fun r =>
          Char.ofNat ((b - 0xE0) * 0x1000 + (b2 - 0x80) * 0x40 + (b3 - 0x80)) :: r)
      else none
    | _ => none
  else if 0xF0 ≤ b && b ≤ 0xF4 then
    match bs with
    | b2 :: b3 :: b4 :: bs4 =>
      if (if b = 0xF0 then 0x90 ≤ b2 && b2 ≤ 0xBF
          else if b = 0xF4 then 0x80 ≤ b2 && b2 ≤ 0x8F
          else isCont b2) && isCont b3 && isCont b4 then
        (utf8Decode bs4).map (fun r =>
          Char.ofNat ((b - 0xF0) * 0x40000 + (b2 - 0x80) * 0x1000
            + (b3 - 0x80) * 0x40 + (b4 - 0x80)) :: r)
      else none
    | _ => none
  else none

/-- UTF-8 encoding of one character (used for `.as_bytes()` of formatted
strings). -/
def utf8EncodeChar (c : Char) : List Nat :=
  let n := c.toNat
  if n ≤ 0x7F then [n]
  else if n ≤ 0x7FF then [0xC0 + n / 0x40, 0x80 + n % 0x40]
  else if n ≤ 0xFFFF then
    [0xE0 + n / 0x1000, 0x80 + (n / 0x40) % 0x40, 0x80 + n % 0x40]
  else
    [0xF0 + n / 0x40000, 0x80 + (n / 0x1000) % 0x40,
     0x80 + (n / 0x40) % 0x40, 0x80 + n % 0x40]

/-- UTF-8 bytes of a character sequence. -/
def charsBytes (s : List Char) : List Nat := (s.map utf8EncodeChar).flatten

/-- One character of the `Debug` rendering of a `&str` (escaping as in
`char::escape_debug` for the characters that can occur here; other
control/Unicode escapes are not needed by the fixed routes). -/
def escapeDebugChar (c : Char) : List Char :=
  if c = '"' then ['\\', '"']
  else if c = '\\' then ['\\', '\\']
  else if c = '\n' then ['\\', 'n']
  else if c = '\r' then ['\\', 'r']
  else if c = '\t' then ['\\', 't']
  else [c]

/-- Rendering of `format!("{:?}", opt)` for `opt : Option<&str>`, as used for the
echoed `User-Agent` header on the `/` route. -/
def debugOptStr : Option (List Char) → List Char
| none => ("None").toList
| some s => ("Some(\"").toList ++ (s.map escapeDebugChar).flatten ++ ("\")").toList

/-- The `enum State` from src/main.rs. -/
inductive State
| Reading
| Handling
| Writing
deriving DecidableEq

/-- A mio `EventSet`, restricted to the readable/writable bits — the only
bits this program ever sets or inspects (mio also carries error/hup bits,
never used here). -/
structure EventSet where
  readable : Bool
  writable : Bool
deriving DecidableEq

/-- Embedding of `EventSet::readable()`. -/
def EventSet.readableOnly : EventSet := { readable := true, writable := false }

/-- Embedding of `EventSet::writable()`. -/
def EventSet.writableOnly : EventSet := { readable := false, writable := true }

/-- Embedding of `EventSet::all()`: every bit set, in particular readable and writable. -/
def EventSet.all : EventSet := { readable := true, writable := true }

/-- The interest computed by `Request::reregister` from the current state. -/
def stateEventSet : State → EventSet
| State.Reading => EventSet.readableOnly
| State.Handling => EventSet.all
| State.Writing => EventSet.writableOnly

/-- Observable side effects of one state-machine step. -/
inductive Action
| reregister (es : EventSet)
| register (token : Nat) (es : EventSet)
| shutdownBoth
| crash
deriving DecidableEq

/-- Outcome of one `try_read_buf` call: `ok bs` is `Ok(Some(n))` with the
`n = bs.length` bytes that were appended to the buffer, `wouldBlock` is
`Ok(None)`, `ioError` is `Err(e)`. -/
inductive ReadResult
| ok (bs : List Nat)
| wouldBlock
| ioError
deriving DecidableEq

/-- Outcome of one `try_write_buf` call: `ok n` is `Ok(Some(n))`,
`wouldBlock` is `Ok(None)`, `ioError` is `Err(e)`. -/
inductive WriteResult
| ok (n : Nat)
| wouldBlock
| ioError
deriving DecidableEq

/-- Outcome of one `TcpListener::accept` call: `conn` is
`Ok(Some((stream, addr)))`, `noneReady` is `Ok(None)`, `ioError` is
`Err(e)`. -/
inductive AcceptResult
| conn
| noneReady
| ioError
deriving DecidableEq

/-- The `struct Request` from src/main.rs (the `TcpStream` handle itself is
not modelled; its operations appear as step outcomes and `Action`s). -/
structure Request where
  token : Nat
  state : State
  req : List Nat
  res : List Nat
deriving DecidableEq

/-- Embedding of `Request::new(stream, token)`. -/
def Request.new (token : Nat) : Request :=
  { token := token, state := State.Reading, req := [], res := [] }

/-- Embedding of `Request::read`, one Reading step for one readiness event: a single
`try_read_buf` call, whose bytes (if any) land in `self.req`; on a
non-zero read the buffer is checked for the `\r\n\r\n` terminator and the
state advances to Handling; in every non-error case the socket is
re-registered for the current state's interest; an I/O error panics. -/
def Request.read (self : Request) (rr : ReadResult) : Request × List Action :=
  match rr with
  | ReadResult.ok bs =>
    let s1 : Request := { self with req := self.req ++ bs }
    if bs.length = 0 then
      (s1, [Action.reregister (stateEventSet s1.state)])
    else
      let s2 : Request :=
        if crlfcrlf.isSuffixOf s1.req then { s1 with state := State.Handling } else s1
      (s2, [Action.reregister (stateEventSet s2.state)])
  | ReadResult.wouldBlock =>
    (self, [Action.reregister (stateEventSet self.state)])
  | ReadResult.ioError =>
    (self, [Action.crash])

/-- The response built by `Request::handle` from the inbound bytes.
`now` stands for the UTF-8 bytes of the `Debug` rendering of
`SystemTime::now()`, the only input of the handler not determined by the
request. -/
def buildResponse (req : List Nat) (now : List Nat) : Response :=
  match utf8Decode req with
  | some s =>
    match RequestParser.path s with
    | some p =>
      if p = ("/").toList then
        { code := StatusCode.Ok,
          body := strBytes ("Hello World!\n") ++ now
            ++ charsBytes (debugOptStr (RequestParser.header s (("User-Agent").toList))) }
      else if p = ("/other").toList then
        { code := StatusCode.Ok, body := strBytes ("This is the other path!") }
      else
        { code := StatusCode.NotFound, body := [] }
    | none => { code := StatusCode.NotFound, body := [] }
  | none => { code := StatusCode.Error, body := [] }

/-- Embedding of `Request::handle`: build the response, serialize it into `self.res`,
move to Writing, and re-register (now for writable). -/
def Request.handle (self : Request) (now : List Nat) : Request × List Action :=
  let response := buildResponse self.req now
  let s1 : Request :=
    { self with res := self.res ++ response.writeBytes, state := State.Writing }
  (s1, [Action.reregister (stateEventSet s1.state)])

/-- Embedding of `Request::write`, one Writing step: a single `try_write_buf` call over
a fresh cursor on the whole of `self.res` (no written-offset is kept); a
would-block re-registers; an I/O error panics; in both non-error cases
the socket is then unconditionally shut down in both directions. -/
def Request.write (self : Request) (wr : WriteResult) : Request × List Action :=
  match wr with
  | WriteResult.ok _ => (self, [Action.shutdownBoth])
  | WriteResult.wouldBlock =>
    (self, [Action.reregister (stateEventSet self.state), Action.shutdownBoth])
  | WriteResult.ioError => (self, [Action.crash])

/-- Embedding of `Request::ready`: dispatch on the connection state; the Reading and
Writing arms assert the corresponding readiness bit (a failed assert
panics). -/
def Request.ready (self : Request) (events : EventSet) (rr : ReadResult)
    (wr : WriteResult) (now : List Nat) : Request × List Action :=
  match self.state with
  | State.Reading =>
    if events.readable then self.read rr else (self, [Action.crash])
  | State.Handling => self.handle now
  | State.Writing =>
    if events.writable then self.write wr else (self, [Action.crash])

/-- Embedding of `Slab::new_starting_at(Token(1), 1024)`: 1024 slots; slot `i` holds
the connection with token `i + 1`. -/
def slabNew : List (Option Request) := List.replicate 1024 none

/-- Embedding of `Slab::insert_with`: allocate the lowest vacant slot, build the entry
from its token, and return the token; `none` when at capacity. -/
def slabInsertWith (slab : List (Option Request)) (f : Nat → Request) :
    Option (Nat × List (Option Request)) :=
  match slab.findIdx? (fun e => e.isNone) with
  | some i => some (i + 1, slab.set i (some (f (i + 1))))
  | none => none

/-- Slab lookup by token (callers only pass tokens ≥ 1). -/
def slabGet (slab : List (Option Request)) (t : Nat) : Option Request :=
  (slab[t - 1]?).join

/-- Slab update by token. -/
def slabSet (slab : List (Option Request)) (t : Nat) (c : Request) :
    List (Option Request) :=
  slab.set (t - 1) (some c)

/-- The `struct HttpServer` (the `TcpListener` handle is not modelled; its
`accept` outcome is a step parameter). -/
structure HttpServer where
  requests : List (Option Request)
deriving DecidableEq

/-- Embedding of `Handler::ready` for `HttpServer`: token 0 is the listener — a
successful accept inserts a fresh `Request` into the slab (`.unwrap()`
panics when `insert_with` returns `None` at capacity) and registers it
readable with edge/oneshot; `Ok(None)` and `Err` just log.  Any other
token is dispatched to the slab entry's `Request::ready` (indexing a
vacant slot panics); the updated entry is stored back. -/
def HttpServer.ready (srv : HttpServer) (token : Nat) (events : EventSet)
    (acc : AcceptResult) (rr : ReadResult) (wr : WriteResult) (now : List Nat) :
    HttpServer × List Action :=
  if token = 0 then
    if !events.readable then (srv, [Action.crash])
    else
      match acc with
      | AcceptResult.conn =>
        match slabInsertWith srv.requests Request.new with
        | some (t, slab1) =>
          ({ requests := slab1 }, [Action.register t EventSet.readableOnly])
        | none => (srv, [Action.crash])
      | AcceptResult.noneReady => (srv, [])
      | AcceptResult.ioError => (srv, [])
  else
    match slabGet srv.requests token with
    | some c =>
      let step := c.ready events rr wr now
      ({ requests := slabSet srv.requests token step.1 }, step.2)
    | none => (srv, [Action.crash])

/-- One `try_read_buf` call against the queue of outcomes that successive
read calls on the socket would produce during one readiness event (an
empty queue means the socket would block). -/
def tryReadOnce (pending : List ReadResult) : ReadResult × List ReadResult :=
  match pending with
  | [] => (ReadResult.wouldBlock, [])
  | r :: rs => (r, rs)

/-- One whole Reading step of `Request::read` run against the outcome
queue: the body of `Request::read` contains exactly one `try_read_buf`
call and no loop, so the step consumes exactly one queued outcome and
returns the rest untouched. -/
def Request.readStep (self : Request) (pending : List ReadResult) :
    (Request × List Action) × List ReadResult :=
  let p := tryReadOnce pending
  (Request.read self p.1, p.2)

/-! ## Wire-format extraction (used to state the C1 round-trip) -/

/-- Split a byte list at the first occurrence of the pattern `pat`,
returning the part before it and the part after it. -/
def splitOnceSub (pat : List Nat) : List Nat → Option (List Nat × List Nat)
| [] => if pat.isPrefixOf ([] : List Nat) then some ([], []) else none
| c :: cs =>
  if pat.isPrefixOf (c :: cs) then some ([], (c :: cs).drop pat.length)
  else (splitOnceSub pat cs).map (fun p => (c :: p.1, p.2))

/-- Decimal value of a list of ASCII digit bytes. -/
def decodeDec (ds : List Nat) : Nat := ds.foldl (fun a d => a * 10 + (d - 48)) 0

/-- The status-line prefix of the serialized response, up to (excluding)
its CR LF. -/
def s1Bytes (c : StatusCode) : List Nat := strBytes ("HTTP/1.1 ") ++ c.text

/-- The content-type header line, up to (excluding) its CR LF. -/
def ctBytes : List Nat := strBytes ("Content-type: text/plain; charset=UTF-8")

/-- Read a serialized response as a client would: the part after the
first blank line (CR LF CR LF) is the body; the second line of the head
must carry the body-length header, whose decimal value is returned
together with the body bytes. -/
def responseFrame (s : List Nat) : Option (Nat × List Nat) :=
  match splitOnceSub crlfcrlf s with
  | some (hd, bd) =>
    match splitOnceSub [13, 10] hd with
    | some (_, hs1) =>
      match splitOnceSub [13, 10] hs1 with
      | some (line1, _) =>
        if (strBytes ("Content-Lenght: ")).isPrefixOf line1 then
          some (decodeDec (line1.drop (strBytes ("Content-Lenght: ")).length), bd)
        else none
      | none => none
    | none => none
  | none => none

/-! ## Lemmas about `splitOnceSub`, decimal digits, and serialization -/

lemma isPrefixOf_append_self (pat l : List Nat) :
    pat.isPrefixOf (pat ++ l) = true := by
  induction pat with
  | nil => simp [List.isPrefixOf]
  | cons p ps ih => simp [List.isPrefixOf, ih]

lemma so_cons_miss (pat : List Nat) (c : Nat) (cs : List Nat)
    (h : pat.isPrefixOf (c :: cs) = false) :
    splitOnceSub pat (c :: cs) =
      (splitOnceSub pat cs).map (fun p => (c :: p.1, p.2)) := by
  simp [splitOnceSub, h]

lemma so_head_ne (p0 : Nat) (ps : List Nat) (c : Nat) (cs : List Nat)
    (h : c ≠ p0) :
    splitOnceSub (p0 :: ps) (c :: cs) =
      (splitOnceSub (p0 :: ps) cs).map (fun p => (c :: p.1, p.2)) := by
  apply so_cons_miss
  have hb : (p0 == c) = false := beq_eq_false_iff_ne.mpr (Ne.symm h)
  simp [List.isPrefixOf, hb]

lemma so_clean_append (p0 : Nat) (ps seg : List Nat)
    (hseg : ∀ c ∈ seg, c ≠ p0) (l : List Nat) :
    splitOnceSub (p0 :: ps) (seg ++ l) =
      (splitOnceSub (p0 :: ps) l).map (fun p => (seg ++ p.1, p.2)) := by
  induction seg with
  | nil =>
    rw [List.nil_append]
    cases h : splitOnceSub (p0 :: ps) l <;> simp
  | cons c cs ih =>
    have hc : c ≠ p0 := hseg c (by simp)
    rw [List.cons_append, so_head_ne _ _ _ _ hc, ih (fun d hd => hseg d (by simp [hd]))]
    cases splitOnceSub (p0 :: ps) l <;> simp

lemma so_self (pat l : List Nat) (hne : pat ≠ []) :
    splitOnceSub pat (pat ++ l) = some ([], l) := by
  cases pat with
  | nil => exact absurd rfl hne
  | cons p ps =>
    have hpre := isPrefixOf_append_self (p :: ps) l
    rw [List.cons_append] at hpre ⊢
    simp [splitOnceSub, hpre, List.drop_left]

lemma so_crlf2_terminal (l : List Nat) :
    splitOnceSub [13, 10] (13 :: 10 :: l) = some ([], l) :=
  so_self [13, 10] l (by decide)

lemma so_crlf4_terminal (l : List Nat) :
    splitOnceSub [13, 10, 13, 10] (13 :: 10 :: 13 :: 10 :: l) = some ([], l) :=
  so_self [13, 10, 13, 10] l (by decide)

lemma so_crlf4_skip (l : List Nat) (h : l.head? ≠ some 13) :
    splitOnceSub [13, 10, 13, 10] (13 :: 10 :: l) =
      (splitOnceSub [13, 10, 13, 10] l).map (fun p => (13 :: 10 :: p.1, p.2)) := by
  cases l with
  | nil => decide
  | cons a as =>
    have ha : a ≠ 13 := by
      intro he
      exact h (by simp [he])
    have h1 : ([13, 10, 13, 10] : List Nat).isPrefixOf (13 :: 10 :: a :: as) = false := by
      have hb : (13 == a) = false := beq_eq_false_iff_ne.mpr (Ne.symm ha)
      simp [List.isPrefixOf, hb]
    rw [so_cons_miss _ _ _ h1,
        so_head_ne 13 [10, 13, 10] 10 (a :: as) (by decide)]
    cases splitOnceSub [13, 10, 13, 10] (a :: as) <;> simp

lemma natDecF_digits (fuel : Nat) :
    ∀ n, ∀ d ∈ natDecF fuel n, 48 ≤ d ∧ d ≤ 57 := by
  induction fuel with
  | zero =>
    intro n d hd
    simp [natDecF] at hd
    have := Nat.mod_lt n (y := 10) (by omega)
    omega
  | succ fuel ih =>
    intro n d hd
    rw [natDecF] at hd
    split at hd
    · rename_i h
      simp at hd
      omega
    · rw [List.mem_append] at hd
      rcases hd with hd | hd
      · exact ih (n / 10) d hd
      · simp at hd
        have := Nat.mod_lt n (y := 10) (by omega)
        omega

lemma natDec_digits (n : Nat) : ∀ d ∈ natDec n, 48 ≤ d ∧ d ≤ 57 :=
  natDecF_digits n n

lemma decodeDec_natDecF (fuel : Nat) :
    ∀ n, n ≤ fuel → decodeDec (natDecF fuel n) = n := by
  induction fuel with
  | zero =>
    intro n h
    have hn : n = 0 := by omega
    subst hn
    simp [natDecF, decodeDec]
  | succ fuel ih =>
    intro n h
    rw [natDecF]
    split
    · rename_i h10
      simp only [decodeDec, List.foldl]
      omega
    · rename_i h10
      have hlt : n / 10 < n := Nat.div_lt_self (by omega) (by omega)
      have ihq := ih (n / 10) (by omega)
      simp only [decodeDec, List.foldl_append, List.foldl] at ihq ⊢
      rw [ihq]
      have := Nat.mod_lt n (y := 10) (by omega)
      omega

lemma decodeDec_natDec (n : Nat) : decodeDec (natDec n) = n :=
  decodeDec_natDecF n n (Nat.le_refl n)

lemma head?_append_some {α : Type} {l r : List α} {a : α}
    (h : l.head? = some a) : (l ++ r).head? = some a := by
  cases l <;> simp_all

lemma serialize_normal_form (code : StatusCode) (body : List Nat) :
    Response.writeBytes { code := code, body := body } =
      s1Bytes code ++ (13 :: 10 :: (strBytes ("Content-Lenght: ")
        ++ (natDec body.length ++ (13 :: 10 :: (ctBytes
        ++ (13 :: 10 :: 13 :: 10 :: body)))))) := by
  have hcr : strBytes ("\r\n") = [13, 10] := by decide
  have hct : strBytes ("Content-type: text/plain; charset=UTF-8\r\n")
      = ctBytes ++ [13, 10] := by decide
  simp [Response.writeBytes, StatusCode.writeBytes, s1Bytes, hcr, hct]

/-- C1: for every response the server can serialize, reading the wire
bytes back recovers a declared body-length value equal to the byte
length of the body that follows the blank line, and that body is exactly
the response body.  The numeric value written in the `Content-Lenght`
header therefore always equals the byte count of the serialized body,
whatever the literal header name is. -/
theorem c1_length_header_roundtrip (r : Response) :
    responseFrame (Response.writeBytes r) = some (r.body.length, r.body) := by
  obtain ⟨code, body⟩ := r
  have hclean1 : ∀ d ∈ s1Bytes code, d ≠ 13 := by cases code <;> decide
  have hcleanS2 : ∀ d ∈ strBytes ("Content-Lenght: "), d ≠ 13 := by decide
  have hcleanCt : ∀ d ∈ ctBytes, d ≠ 13 := by decide
  have hdig : ∀ d ∈ natDec body.length, d ≠ 13 := by
    intro d hd
    have := natDec_digits body.length d hd
    omega
  have hheadS2 : ∀ (x : List Nat),
      (strBytes ("Content-Lenght: ") ++ x).head? ≠ some 13 := by
    intro x he
    have h67 : (strBytes ("Content-Lenght: ")).head? = some 67 := by decide
    rw [head?_append_some h67] at he
    simp at he
  have hheadCt : ∀ (x : List Nat), (ctBytes ++ x).head? ≠ some 13 := by
    intro x he
    have h67 : ctBytes.head? = some 67 := by decide
    rw [head?_append_some h67] at he
    simp at he
  -- step 1: split at the first blank line
  have h1 : splitOnceSub crlfcrlf (Response.writeBytes { code := code, body := body }) =
      some (s1Bytes code ++ (13 :: 10 :: (strBytes ("Content-Lenght: ")
        ++ (natDec body.length ++ (13 :: 10 :: ctBytes)))), body) := by
    rw [serialize_normal_form, show crlfcrlf = [13, 10, 13, 10] from rfl]
    rw [so_clean_append 13 [10, 13, 10] (s1Bytes code) hclean1,
        so_crlf4_skip _ (hheadS2 _),
        so_clean_append 13 [10, 13, 10] (strBytes ("Content-Lenght: ")) hcleanS2,
        so_clean_append 13 [10, 13, 10] (natDec body.length) hdig,
        so_crlf4_skip _ (hheadCt _),
        so_clean_append 13 [10, 13, 10] ctBytes hcleanCt,
        so_crlf4_terminal]
    simp
  -- step 2: the head splits at the status line's CR LF
  have h2 : splitOnceSub [13, 10] (s1Bytes code ++ (13 :: 10 ::
      (strBytes ("Content-Lenght: ") ++ (natDec body.length
        ++ (13 :: 10 :: ctBytes))))) =
      some (s1Bytes code, strBytes ("Content-Lenght: ")
        ++ (natDec body.length ++ (13 :: 10 :: ctBytes))) := by
    rw [so_clean_append 13 [10] (s1Bytes code) hclean1, so_crlf2_terminal]
    simp
  -- step 3: the second line ends at the next CR LF
  have h3 : splitOnceSub [13, 10] (strBytes ("Content-Lenght: ")
      ++ (natDec body.length ++ (13 :: 10 :: ctBytes))) =
      some (strBytes ("Content-Lenght: ") ++ natDec body.length, ctBytes) := by
    rw [so_clean_append 13 [10] (strBytes ("Content-Lenght: ")) hcleanS2,
        so_clean_append 13 [10] (natDec body.length) hdig,
        so_crlf2_terminal]
    simp
  simp only [responseFrame, h1, h2, h3, isPrefixOf_append_self, if_true,
    List.drop_left, decodeDec_natDec]

/-! ## Lemmas about whitespace tokenization and lines -/

lemma splitWsAux_ws_append (c : Char) (hc : isRustWhitespace c = true)
    (ys xs : List Char) : ∀ acc,
    splitWsAux (xs ++ c :: ys) acc = splitWsAux xs acc ++ splitWs ys := by
  induction xs with
  | nil =>
    intro acc
    by_cases h : acc.isEmpty <;> simp [splitWsAux, hc, h, splitWs]
  | cons x xs ih =>
    intro acc
    by_cases hx : isRustWhitespace x
    · by_cases ha : acc.isEmpty <;> simp [splitWsAux, hx, ha, ih]
    · simp [splitWsAux, hx, ih]

lemma splitWs_ws_append (c : Char) (hc : isRustWhitespace c = true)
    (xs ys : List Char) :
    splitWs (xs ++ c :: ys) = splitWs xs ++ splitWs ys :=
  splitWsAux_ws_append c hc ys xs []

lemma splitWs_stripCr (l : List Char) : splitWs (stripCr l) = splitWs l := by
  unfold stripCr
  split
  · rename_i h
    have hne : l ≠ [] := by
      intro he
      rw [he] at h
      simp at h
    have hlast : l.getLast hne = '\r' := by
      have := List.getLast?_eq_getLast l hne
      rw [this] at h
      exact Option.some.inj h
    conv_rhs => rw [← List.dropLast_append_getLast hne, hlast]
    rw [show ['\r'] = '\r' :: ([] : List Char) from rfl,
      splitWs_ws_append '\r' (by decide)]
    simp [splitWs, splitWsAux]
  · rfl

lemma linesAux_no_nl (rest : List Char) (line : List Char) (h : '\n' ∉ line) :
    ∀ acc, linesAux (line ++ '\n' :: rest) acc =
      stripCr (acc.reverse ++ line) :: linesAux rest [] := by
  induction line with
  | nil => intro acc; simp [linesAux]
  | cons c cs ih =>
    intro acc
    have hc : c ≠ '\n' := by
      intro he
      exact h (by simp [he])
    have h2 : '\n' ∉ cs := fun hm => h (List.mem_cons_of_mem _ hm)
    simp [linesAux, hc, ih h2]

lemma rustLines_first (line rest : List Char) (h : '\n' ∉ line) :
    rustLines (line ++ '\n' :: rest) = stripCr line :: rustLines rest := by
  simpa [rustLines] using linesAux_no_nl rest line h []

lemma getElem1_append {α : Type} (A B : List α) (h : 2 ≤ A.length) :
    (A ++ B)[1]? = A[1]? := by
  match A, h with
  | a :: b :: A2, _ => simp

/-! ## Concrete fixtures used by the claim theorems -/

/-- Witness for C1 at a concrete response. -/
theorem c1_length_header_roundtrip_witness :
    responseFrame (Response.writeBytes
        { code := StatusCode.Ok, body := strBytes ("hi") }) =
      some ((strBytes ("hi")).length, strBytes ("hi")) :=
  c1_length_header_roundtrip { code := StatusCode.Ok, body := strBytes ("hi") }

/-- A connection in Reading with a partial header buffered (terminator
not yet received). -/
def connReading : Request :=
  { token := 1, state := State.Reading,
    req := strBytes ("GET / HTTP/1.1\r\n"), res := [] }

/-- A connection in Writing holding a fully serialized response. -/
def connWriting : Request :=
  { token := 1, state := State.Writing,
    req := strBytes ("GET /other HTTP/1.1\r\n\r\n"),
    res := Response.writeBytes
      { code := StatusCode.Ok, body := strBytes ("This is the other path!") } }

/-- A server whose slab holds exactly one live connection, at token 1. -/
def srvOne : HttpServer := { requests := slabSet slabNew 1 connWriting }

/-- A server whose slab is at capacity: all 1024 slots occupied. -/
def srvFull : HttpServer :=
  { requests := List.replicate 1024 (some (Request.new 1)) }

/-! ## Claim theorems -/

/-- C2: what `Request::read` actually does when the non-blocking read
reports `Ok(Some(0))` (peer closed) while the terminator has not been
received: the connection is left unchanged — still in Reading, buffers
intact — and is re-registered for readable again, instead of being
failed and destroyed.  (Evidence for the claim's divergence from the
code; the process does not crash on this path.) -/
theorem c2_zero_read_keeps_reading :
    Request.read connReading (ReadResult.ok []) =
      (connReading, [Action.reregister EventSet.readableOnly])
    ∧ connReading.state = State.Reading := by
  constructor
  · decide
  · rfl

/-- C3: one Reading step performs exactly one read call.  With two
chunks available on the socket during a single readiness event — the
second completing the header terminator — the step consumes only the
first chunk, leaves the second in the OS queue, stays in Reading and
re-registers, instead of draining in a loop until would-block or the
terminator. -/
theorem c3_single_read_per_event :
    Request.readStep (Request.new 1)
        [ReadResult.ok (strBytes ("GET / HT")),
         ReadResult.ok (strBytes ("TP/1.1\r\n\r\n"))] =
      (({ token := 1, state := State.Reading,
          req := strBytes ("GET / HT"), res := [] },
        [Action.reregister EventSet.readableOnly]),
       [ReadResult.ok (strBytes ("TP/1.1\r\n\r\n"))]) := by
  decide

/-- C4: what `Request::write` actually does on a would-block and on a
partial write: in both cases the socket is shut down (both directions)
at the end of the step — on would-block even together with a fresh
writable re-registration — and no written-offset exists or advances
(`res` and the whole connection are unchanged), instead of keeping the
socket open until the full remaining bytes are written. -/
theorem c4_shutdown_regardless_of_progress :
    Request.write connWriting WriteResult.wouldBlock =
      (connWriting,
       [Action.reregister EventSet.writableOnly, Action.shutdownBoth])
    ∧ Request.write connWriting (WriteResult.ok 3) =
      (connWriting, [Action.shutdownBoth]) := by
  constructor
  · decide
  · decide

/-- C5: when a Writing step completes the full write, the dispatcher
stores the connection back into the slab unchanged: no slab entry is
ever removed, so the Connection is not destroyed and its token is never
returned to the free pool. -/
theorem c5_entry_never_removed :
    HttpServer.ready srvOne 1 EventSet.writableOnly AcceptResult.noneReady
        ReadResult.wouldBlock (WriteResult.ok connWriting.res.length) [] =
      (srvOne, [Action.shutdownBoth])
    ∧ slabGet srvOne.requests 1 = some connWriting := by
  constructor
  · decide
  · decide

/-- C6: what the code actually does when a connection's non-blocking
read or write returns an I/O error: it panics, terminating the whole
process, instead of terminating only that connection. -/
theorem c6_io_error_panics_process :
    Request.read connReading ReadResult.ioError = (connReading, [Action.crash])
    ∧ Request.write connWriting WriteResult.ioError =
      (connWriting, [Action.crash]) := by
  constructor
  · rfl
  · rfl

/-- C7: what the accept path actually does when the connection table is
at capacity: `insert_with` returns `None` and the `.unwrap()` panics,
crashing the process, instead of closing the new socket and carrying
on. -/
theorem c7_accept_at_capacity_panics :
    HttpServer.ready srvFull 0 EventSet.readableOnly AcceptResult.conn
        ReadResult.wouldBlock WriteResult.wouldBlock [] =
      (srvFull, [Action.crash]) := by
  decide

/-- C8 counterexample: the token scan is not limited to the first line.
For the request text consisting of the line `GET` followed by the line
`Host: x`, the first line holds exactly one token, so by the claim
`path()` should be absent — yet it returns `Host:`, a token from the
second line. -/
theorem c8_counterexample :
    RequestParser.path (("GET\nHost: x").toList) = some (("Host:").toList)
    ∧ (rustLines (("GET\nHost: x").toList)).head? = some (("GET").toList)
    ∧ splitWs (("GET").toList) = [("GET").toList] := by
  refine ⟨by decide, by decide, by decide⟩

/-- C8 amended: `method()` and `path()` return the first and second
whitespace-delimited tokens of the whole request text; because newlines
are whitespace, these coincide with the first line's first two tokens
whenever the first line holds at least two tokens, but when the first
line holds fewer tokens, tokens from later lines can be returned (see
the counterexample). -/
theorem c8_amended (line rest : List Char)
    (hnl : '\n' ∉ line)
    (htwo : 2 ≤ (splitWs (stripCr line)).length) :
    (rustLines (line ++ '\n' :: rest)).head? = some (stripCr line)
    ∧ RequestParser.method (line ++ '\n' :: rest) =
        (splitWs (stripCr line)).head?
    ∧ RequestParser.path (line ++ '\n' :: rest) =
        (splitWs (stripCr line))[1]? := by
  have hsplit : splitWs (line ++ '\n' :: rest) =
      splitWs (stripCr line) ++ splitWs rest := by
    rw [splitWs_ws_append '\n' (by decide), splitWs_stripCr]
  refine ⟨?_, ?_, ?_⟩
  · rw [rustLines_first line rest hnl]
    rfl
  · unfold RequestParser.method
    rw [hsplit]
    obtain ⟨t, ts, he⟩ : ∃ t ts, splitWs (stripCr line) = t :: ts := by
      cases hE : splitWs (stripCr line) with
      | nil => rw [hE] at htwo; simp at htwo
      | cons t ts => exact ⟨t, ts, rfl⟩
    rw [he]
    rfl
  · unfold RequestParser.path
    rw [hsplit, getElem1_append _ _ htwo]

/-- Witness for the amended C8 at a concrete CRLF request. -/
theorem c8_amended_witness :
    (rustLines ((("GET / HTTP/1.1\r").toList) ++ '\n' :: (("Host: a").toList))).head?
        = some (stripCr (("GET / HTTP/1.1\r").toList))
    ∧ RequestParser.method ((("GET / HTTP/1.1\r").toList) ++ '\n' :: (("Host: a").toList))
        = (splitWs (stripCr (("GET / HTTP/1.1\r").toList))).head?
    ∧ RequestParser.path ((("GET / HTTP/1.1\r").toList) ++ '\n' :: (("Host: a").toList))
        = (splitWs (stripCr (("GET / HTTP/1.1\r").toList)))[1]? :=
  c8_amended (("GET / HTTP/1.1\r").toList) (("Host: a").toList)
    (by decide) (by decide)

/-- C9: the route table of `Request::handle`.  For any inbound bytes:
if they decode as text whose `path()` is `/other`, the response is Ok
(serialized as status 200) with exactly the fixed alternate body; if
they decode as text whose `path()` is neither `/` nor `/other`
(including absent), the response is NotFound (404) with empty body; if
they are not valid text, the response is Error (500) with empty body.
The serialized status lines tie each code to its number, and
`Request::handle` serializes exactly `buildResponse` into `res` and
moves to Writing — the normal Handling/Writing path. -/
theorem c9_route_table (req now : List Nat) :
    (∀ s, utf8Decode req = some s →
      RequestParser.path s = some (("/other").toList) →
      buildResponse req now =
        { code := StatusCode.Ok, body := strBytes ("This is the other path!") })
    ∧ (∀ s, utf8Decode req = some s →
        RequestParser.path s ≠ some (("/").toList) →
        RequestParser.path s ≠ some (("/other").toList) →
        buildResponse req now = { code := StatusCode.NotFound, body := [] })
    ∧ (utf8Decode req = none →
        buildResponse req now = { code := StatusCode.Error, body := [] })
    ∧ StatusCode.writeBytes StatusCode.Ok = strBytes ("HTTP/1.1 200 OK\r\n")
    ∧ StatusCode.writeBytes StatusCode.NotFound
        = strBytes ("HTTP/1.1 404 Not Found\r\n")
    ∧ StatusCode.writeBytes StatusCode.Error
        = strBytes ("HTTP/1.1 500 Internal Server Error\r\n")
    ∧ (∀ c : Request, Request.handle c now =
        ({ c with res := c.res ++ (buildResponse c.req now).writeBytes,
                  state := State.Writing },
         [Action.reregister EventSet.writableOnly])) := by
  refine ⟨?_, ?_, ?_, by decide, by decide, by decide, fun c => rfl⟩
  · intro s hs hp
    simp only [buildResponse, hs, hp]
    rw [if_neg (by decide)]
    simp
  · intro s hs h1 h2
    cases hps : RequestParser.path s with
    | none => simp only [buildResponse, hs, hps]
    | some p =>
      have hp1 : p ≠ ("/").toList := by
        intro he
        exact h1 (by rw [hps, he])
      have hp2 : p ≠ ("/other").toList := by
        intro he
        exact h2 (by rw [hps, he])
      simp only [buildResponse, hs, hps]
      rw [if_neg hp1, if_neg hp2]
  · intro h
    simp only [buildResponse, h]

/-- Witness for C9 at the three concrete scenario requests. -/
theorem c9_route_table_witness :
    buildResponse (strBytes ("GET /other HTTP/1.1\r\n\r\n")) [] =
      { code := StatusCode.Ok, body := strBytes ("This is the other path!") }
    ∧ buildResponse (strBytes ("GET /missing HTTP/1.1\r\n\r\n")) [] =
      { code := StatusCode.NotFound, body := [] }
    ∧ buildResponse [255] [] = { code := StatusCode.Error, body := [] } := by
  refine ⟨?_, ?_, ?_⟩
  · exact (c9_route_table (strBytes ("GET /other HTTP/1.1\r\n\r\n")) []).1
      (("GET /other HTTP/1.1\r\n\r\n").toList) (by decide) (by decide)
  · exact (c9_route_table (strBytes ("GET /missing HTTP/1.1\r\n\r\n")) []).2.1
      (("GET /missing HTTP/1.1\r\n\r\n").toList) (by decide) (by decide) (by decide)
  · exact (c9_route_table [255] []).2.2.1 (by decide)

/-- C10: when a Reading step's read completes the terminator, the step
only marks the connection Handling and re-registers it with
`EventSet::all()` (readable and writable both set); the response buffer
is untouched in that step, and the Handling work runs only when
`Request::ready` is invoked again for a later delivered event, which
then dispatches to `Request::handle`. -/
theorem c10_handling_deferred_to_next_event (c : Request) (bs : List Nat)
    (events : EventSet) (wr : WriteResult) (now : List Nat)
    (hstate : c.state = State.Reading)
    (hread : events.readable = true)
    (hbs : bs ≠ [])
    (hterm : crlfcrlf.isSuffixOf (c.req ++ bs) = true) :
    Request.ready c events (ReadResult.ok bs) wr now =
      ({ c with req := c.req ++ bs, state := State.Handling },
       [Action.reregister EventSet.all])
    ∧ EventSet.all.readable = true
    ∧ EventSet.all.writable = true
    ∧ (Request.ready c events (ReadResult.ok bs) wr now).1.res = c.res
    ∧ (∀ c2 : Request, c2.state = State.Handling →
        Request.ready c2 events (ReadResult.ok bs) wr now =
          Request.handle c2 now) := by
  have hlen : ¬ bs.length = 0 := by
    intro he
    exact hbs (List.eq_nil_of_length_eq_zero he)
  have hmain : Request.ready c events (ReadResult.ok bs) wr now =
      ({ c with req := c.req ++ bs, state := State.Handling },
       [Action.reregister EventSet.all]) := by
    unfold Request.ready
    rw [hstate]
    simp only [hread, if_true]
    unfold Request.read
    simp only [if_neg hlen, hterm, if_true]
    rfl
  refine ⟨hmain, rfl, rfl, ?_, ?_⟩
  · rw [hmain]
  · intro c2 h2
    unfold Request.ready
    rw [h2]

/-- A connection one read away from completing the header terminator. -/
def connAlmost : Request :=
  { token := 1, state := State.Reading,
    req := strBytes ("GET /other HTTP/1.1"), res := [] }

/-- Witness for C10: a read that completes the terminator on a concrete
connection. -/
theorem c10_handling_deferred_witness :
    Request.ready connAlmost EventSet.readableOnly
        (ReadResult.ok (strBytes ("\r\n\r\n"))) WriteResult.wouldBlock [] =
      ({ connAlmost with req := connAlmost.req ++ strBytes ("\r\n\r\n"),
                          state := State.Handling },
       [Action.reregister EventSet.all])
    ∧ EventSet.all.readable = true
    ∧ EventSet.all.writable = true
    ∧ (Request.ready connAlmost EventSet.readableOnly
        (ReadResult.ok (strBytes ("\r\n\r\n"))) WriteResult.wouldBlock []).1.res
        = connAlmost.res
    ∧ (∀ c2 : Request, c2.state = State.Handling →
        Request.ready c2 EventSet.readableOnly
            (ReadResult.ok (strBytes ("\r\n\r\n"))) WriteResult.wouldBlock [] =
          Request.handle c2 []) :=
  c10_handling_deferred_to_next_event connAlmost (strBytes ("\r\n\r\n"))
    EventSet.readableOnly WriteResult.wouldBlock [] rfl rfl
    (by decide) (by decide)

end Henkttp
